import Mathlib

/-!
Verification development for the rtk fact-extraction engine.

This file gives a shallow embedding of the rtk source:
* the fact model of `crates/rtk-lua/src/api.rs` (`Location`, `TypeValue`,
  `StructTypeValue`, `EnumTypeValue`, ... and the Lua marshalling macros of
  `crates/rtk-lua/src/macros.rs`),
* the declaration-path conversion of `crates/rtk-rustc-driver/src/path.rs`,
* the type elevator of `crates/rtk-rustc-driver/src/type_elevate.rs`,
* the expression elevator of `crates/rtk-rustc-driver/src/expr_elevate.rs`
  and the method-call query matcher of `crates/rtk-rustc-driver/src/queries.rs`,
* the version-string parser of `crates/rtk-lua/src/versioning.rs`.

Host-compiler (rustc `TyCtxt`) oracles — `tcx.def_path`, `tcx.crate_name`,
attribute/doc-comment extraction, `{:#?}` debug rendering and the resolved
declaration `Location` of a `DefId` — are supplied by an explicit environment
structure `Env`, mirroring the injected-oracle design of the engine.  Rust's
`dcx().warn`/`dcx().err` diagnostics (which emit and continue) are modelled by
an accumulated `Diag` list; `dcx().fatal` (which never returns) is modelled by
`Except.error`.

The mutable `FxHashSet` visited set of the type elevator is only ever inserted
into by the source (there is no removal anywhere in `type_elevate.rs`), so the
state threading is represented append-only: each elevator function takes the
current visited list and returns the freshly appended suffix; the caller's new
visited set is `visited ++ suffix`.
-/

/-- Location of `api.rs`: fully-qualified structural address of a declaration.
Equality is the derived structural equality, mirroring `#[derive(PartialEq, Eq)]`. -/
structure Location where
  crate_name : String
  path : List String
  impl_block_number : Option Nat
deriving DecidableEq, Repr

/-- Attribute of `api.rs`: an attribute in the source code. -/
structure Attribute where
  name : String
  value_str : Option String
deriving DecidableEq, Repr

/-- The `mlua::Either` used by `api.rs` for struct field names
(positional index or name). -/
inductive Either (α β : Type) : Type where
  | Left (a : α)
  | Right (b : β)
deriving DecidableEq, Repr

/-- rustc `DefId`: a crate number and a definition index. -/
structure DefId where
  krate : Nat
  index : Nat
deriving DecidableEq, Repr

/-- The part of rustc `DefPathData` that `path.rs` distinguishes: an impl-block
segment versus everything else.  A non-impl segment carries the string that
`segment.data.to_string()` renders (an oracle of the host compiler). -/
inductive DefPathData where
  | impl
  | other (s : String)
deriving DecidableEq, Repr

/-- One segment of a rustc `DefPath`: its data plus its disambiguator. -/
structure DisambiguatedDefPathData where
  data : DefPathData
  disambiguator : Nat
deriving DecidableEq, Repr

/-- rustc `DefPath`, with the crate already rendered to its name
(the `tcx.crate_name(dp.krate)` oracle). -/
structure DefPath where
  krate : String
  data : List DisambiguatedDefPathData
deriving DecidableEq, Repr

/-- The fold inside `def_path_to_rtk_location` (path.rs lines 22-37): non-impl
segments are pushed onto the module path in order; the first impl segment
records its disambiguator; a second impl segment hits `dcx().fatal`, modelled
as `Except.error`. -/
def def_path_fold : List DisambiguatedDefPathData → List String → Option Nat →
    Except String (List String × Option Nat)
  | [], acc, impl_block_number => .ok (acc, impl_block_number)
  | ⟨segData, segDis⟩ :: rest, acc, impl_block_number =>
    match segData, impl_block_number with
    | .impl, none => def_path_fold rest acc (some segDis)
    | .impl, some _ => .error "deeply nested impl blocks currently unsupported"
    | .other s, ibn => def_path_fold rest (acc ++ [s]) ibn

/-- `def_path_to_rtk_location` of path.rs: convert a declaration path into a
`Location`.  `dcx().fatal` on nested impl blocks is the `Except.error` case. -/
def def_path_to_rtk_location (dp : DefPath) : Except String Location :=
  match def_path_fold dp.data [] none with
  | .error e => .error e
  | .ok (path, impl_block_number) => .ok ⟨dp.krate, path, impl_block_number⟩

/-- `fmt_rtk_location` of path.rs. -/
def fmt_rtk_location (loc : Location) : String :=
  let impl_block :=
    match loc.impl_block_number with
    | some n => "\x7bimpl#" ++ toString n ++ "\x7d"
    | none => ""
  loc.crate_name ++ "::" ++ String.intercalate "::" loc.path ++ impl_block

/-! The rustc types (`TyKind` cases) that `type_elevate.rs` handles.  Generic
arguments are modelled as a list of types (`arg.expect_ty()` is applied by the
known-type folding); lifetime/const arguments, which elevation never touches,
are omitted.  `closure` carries the oracle-resolved unclosured signature
(`signature_unclosure(closure_args.as_closure().sig())`).  `unsupported` stands
for every `TyKind` that falls into the `_ty => None` arm. -/
mutual
/-- See the comment above: the rustc type kinds the elevator handles. -/
inductive RustTy where
  | bool
  | i8 | i16 | i32 | i64 | i128 | isize
  | u8 | u16 | u32 | u64 | u128 | usize
  | f32 | f64
  | str
  | ref (t : RustTy)
  | tuple (ts : RustTyList)
  | adt (did : DefId) (args : RustTyList)
  | closure (args : RustTyList) (ret : RustTy)
  | unsupported
inductive RustTyList where
  | nil
  | cons (head : RustTy) (tail : RustTyList)
end

deriving instance DecidableEq for RustTy, RustTyList
deriving instance Repr for RustTy, RustTyList

mutual
/-- The `TypeValue` tagged union of `api.rs` together with its payload
structures, with the exact variant and field order of the source. -/
inductive TypeValue where
  | String
  | U8 | U16 | U32 | U64 | U128 | Usize
  | I8 | I16 | I32 | I64 | I128 | Isize
  | F32 | F64
  | Bool
  | HashMap (key : TypeValue) (value : TypeValue)
  | Vec (t : TypeValue)
  | Result (ok : TypeValue) (err : TypeValue)
  | Struct (s : StructTypeValue)
  | Enum (e : EnumTypeValue)
  | Closure (c : ClosureTypeValue)
  | Function (f : FunctionTypeValue)
  | Option (t : TypeValue)
  | Tuple (elements : List TypeValue)
  | RecursiveRef (location : Location)
inductive StructTypeValue where
  | mk (location : Location) (fields : List StructTypeValueField)
      (doc_comment : Option String) (attributes : List Attribute)
inductive StructTypeValueField where
  | mk (name : Either Nat String) (doc_comment : Option String)
      (attributes : List Attribute) (value : TypeValue)
inductive EnumTypeValue where
  | mk (location : Location) (variants : List EnumTypeValueVariant)
      (doc_comment : Option String) (attributes : List Attribute)
inductive EnumTypeValueVariant where
  | mk (name : String) (value : Option TypeValue)
      (doc_comment : Option String) (attributes : List Attribute)
inductive ClosureTypeValue where
  | mk (args : List TypeValue) (return_type : Option TypeValue)
inductive FunctionTypeValue where
  | mk (location : Location) (args_struct : StructTypeValue)
      (return_type : Option TypeValue) (item_id : String)
      (attributes : List Attribute) (doc_comment : Option String) (is_async : Bool)
end

/-- A diagnostic emitted through the host `dcx()`.  `warn` and `err` emit and
let execution continue; the process-terminating `fatal` is modelled separately
by `Except.error` and never appears in this list. -/
inductive Diag where
  | note (msg : String)
  | warn (msg : String)
  | err (msg : String)
deriving DecidableEq, Repr

/-- The cycle-detection set `FxHashSet<(DefId, GenericArgsRef)>`, modelled as
the list of inserted keys in insertion order. -/
abbrev Visited := List (DefId × RustTyList)

/-- A field of an ADT as the elevator sees it: the field's own `DefId` (for
attributes and doc comment), whether `field.ident(tcx).is_numeric()`, the
rendered ident, and `field.ty(tcx, generic_args)` — the field type already
substituted by the host for this instantiation. -/
structure FieldInfo where
  did : DefId
  numericIdent : Bool
  identStr : String
  ty : RustTy

/-- An enum variant as the elevator sees it: `variant.def_id`, `variant.name`,
and `variant.fields`. -/
structure VariantInfo where
  did : DefId
  name : String
  fields : List FieldInfo

/-- Whether the `AdtDef` `is_union()` / `is_enum()` / neither (struct). -/
inductive AdtKind where
  | structKind
  | enumKind
  | unionKind
deriving DecidableEq, Repr

/-- The data of a rustc `AdtDef` for one concrete instantiation:
`all_fields()` (for structs) and `variants()` (for enums). -/
structure AdtInfo where
  kind : AdtKind
  fields : List FieldInfo
  variants : List VariantInfo

/-- The host-compiler snapshot, as the injected oracle interface of the design:
the ADT table keyed by `(DefId, generic args)`, the resolved `Location` of a
`DefId` (the total composition `def_path_to_rtk_location(tcx.def_path(did))`
on the declarations present in the snapshot), `attributes_for_did`,
`doc_comment_for_did`, and the `{:#?}` debug rendering of a type. -/
structure Env where
  adts : List ((DefId × RustTyList) × AdtInfo)
  loc : DefId → Location
  attrs : DefId → List Attribute
  doc : DefId → Option String
  dbgTy : RustTy → String

/-- Association-list lookup for the ADT table. -/
def lookup_adt_list : List ((DefId × RustTyList) × AdtInfo) → (DefId × RustTyList) →
    Option AdtInfo
  | [], _ => none
  | (k2, info) :: rest, k => if k2 = k then some info else lookup_adt_list rest k

/-- Look up the `AdtDef` data of one instantiation in the snapshot. -/
def Env.lookupAdt (env : Env) (k : DefId × RustTyList) : Option AdtInfo :=
  lookup_adt_list env.adts k

/-- The keys of the snapshot's ADT table. -/
def envKeys (env : Env) : List (DefId × RustTyList) :=
  env.adts.map Prod.fst

/-- Number of snapshot keys not yet in the visited set — the quantity that
shrinks whenever elevation enters a new nominal type, used for termination. -/
def freeKeys (env : Env) (vis : Visited) : Nat :=
  ((envKeys env).filter (fun k => decide (k ∉ vis))).length

theorem length_filter_le_of_imp {α : Type} (l : List α) (p q : α → Bool)
    (h : ∀ a, q a = true → p a = true) :
    (l.filter q).length ≤ (l.filter p).length := by
  induction l with
  | nil => simp
  | cons a t ih =>
    by_cases hq : q a = true
    · simp [List.filter, hq, h a hq]
      omega
    · simp only [List.filter, Bool.not_eq_true] at hq ⊢
      rw [hq]
      by_cases hp : p a = true
      · rw [hp]
        simp
        omega
      · simp only [Bool.not_eq_true] at hp
        rw [hp]
        exact ih

theorem freeKeys_append_le (env : Env) (vis δ : Visited) :
    freeKeys env (vis ++ δ) ≤ freeKeys env vis := by
  apply length_filter_le_of_imp
  intro a ha
  simp only [decide_eq_true_eq] at ha ⊢
  intro hmem
  exact ha (List.mem_append_left _ hmem)

theorem length_filter_lt_of_pointwise {α : Type} (l : List α) (p q : α → Bool) (k : α)
    (himp : ∀ a, q a = true → p a = true) (hk : k ∈ l)
    (hqk : q k = false) (hpk : p k = true) :
    (l.filter q).length < (l.filter p).length := by
  induction l with
  | nil => cases hk
  | cons a t ih =>
    rcases List.mem_cons.mp hk with rfl | hkt
    · simp only [List.filter, hqk, hpk, List.length_cons]
      have := length_filter_le_of_imp t p q himp
      omega
    · cases hqa : q a
      · cases hpa : p a
        · simp only [List.filter, hqa, hpa]
          exact ih hkt
        · simp only [List.filter, hqa, hpa, List.length_cons]
          have := ih hkt
          omega
      · have hpa := himp a hqa
        simp only [List.filter, hqa, hpa, List.length_cons]
        have := ih hkt
        omega

theorem freeKeys_insert_lt (env : Env) (vis : Visited) (k : DefId × RustTyList)
    (hk : k ∈ envKeys env) (hnv : k ∉ vis) :
    freeKeys env (vis ++ [k]) < freeKeys env vis := by
  unfold freeKeys
  apply length_filter_lt_of_pointwise _ _ _ k _ hk
  · simp
  · simpa using hnv
  · intro a ha
    simp only [decide_eq_true_eq] at ha ⊢
    intro hmem
    exact ha (List.mem_append_left _ hmem)

theorem freeKeys_insert_trans (env : Env) (vis δ : Visited) (k : DefId × RustTyList)
    (hm : k ∈ envKeys env) (hnv : k ∉ vis ++ δ) :
    freeKeys env (vis ++ (δ ++ [k])) < freeKeys env vis := by
  rw [← List.append_assoc]
  exact lt_of_lt_of_le (freeKeys_insert_lt env (vis ++ δ) k hm hnv)
    (freeKeys_append_le env vis δ)

theorem mem_map_fst_of_lookup_adt_list (l : List ((DefId × RustTyList) × AdtInfo))
    (k : DefId × RustTyList) (info : AdtInfo)
    (h : lookup_adt_list l k = some info) : k ∈ l.map Prod.fst := by
  induction l with
  | nil => simp [lookup_adt_list] at h
  | cons p rest ih =>
    obtain ⟨k2, i2⟩ := p
    simp only [lookup_adt_list] at h
    by_cases hk : k2 = k
    · subst hk
      exact List.mem_map_of_mem Prod.fst (List.mem_cons_self _ _)
    · rw [if_neg hk] at h
      exact List.mem_cons_of_mem _ (ih h)

theorem mem_envKeys_of_lookup (env : Env) (k : DefId × RustTyList) (info : AdtInfo)
    (h : env.lookupAdt k = some info) : k ∈ envKeys env :=
  mem_map_fst_of_lookup_adt_list env.adts k info h

theorem lex_nat_le_lt {a b c d : Nat} (h1 : a ≤ c) (h2 : b < d) :
    Prod.Lex (· < ·) (· < ·) (a, b) (c, d) := by
  rcases Nat.lt_or_ge a c with h | h
  · exact Prod.Lex.left _ _ h
  · have heq : a = c := Nat.le_antisymm h1 h
    subst heq
    exact Prod.Lex.right _ h2

/-- The fully-qualified paths of the known-type table in
`maybe_resolve_known_def_path`. -/
def knownDefPaths : List String :=
  ["alloc::boxed::Box", "core::option::Option", "core::result::Result",
   "hashbrown::map::HashMap", "std::collections::hash::map::HashMap",
   "alloc::string::String", "alloc::vec::Vec"]

mutual

/-- `type_as_rtk_lua_type_value` of type_elevate.rs: elevate a resolved rustc
type into a `TypeValue`.  Returns the optional value, the keys appended to the
shared visited set, and the diagnostics emitted. -/
def type_as_rtk_lua_type_value (env : Env) (ty : RustTy) (visited : Visited) :
    Option TypeValue × Visited × List Diag :=
  match ty with
  | .bool => (some .Bool, [], [])
  | .i8 => (some .I8, [], [])
  | .i16 => (some .I16, [], [])
  | .i32 => (some .I32, [], [])
  | .i64 => (some .I64, [], [])
  | .i128 => (some .I128, [], [])
  | .isize => (some .Isize, [], [])
  | .u8 => (some .U8, [], [])
  | .u16 => (some .U16, [], [])
  | .u32 => (some .U32, [], [])
  | .u64 => (some .U64, [], [])
  | .u128 => (some .U128, [], [])
  | .usize => (some .Usize, [], [])
  | .f32 => (some .F32, [], [])
  | .f64 => (some .F64, [], [])
  | .ref t => type_as_rtk_lua_type_value env t visited
  | .tuple ts =>
    let r := list_as_rtk_lua_type_values env ts visited
    (some (.Tuple r.1), r.2)
  | .str => (some .String, [], [])
  | .adt did args => adt_type_as_rtk_lua_type_value env did args visited
  | .closure cargs cret =>
    let r1 := list_as_rtk_lua_type_values env cargs visited
    let r2 := type_as_rtk_lua_type_value env cret (visited ++ r1.2.1)
    (some (.Closure (.mk r1.1 r2.1)), r1.2.1 ++ r2.2.1, r1.2.2 ++ r2.2.2)
  | .unsupported => (none, [], [])
termination_by (freeKeys env visited, 4 * sizeOf ty)
decreasing_by
all_goals
  simp_wf
  first
  | exact Prod.Lex.left _ _
      (freeKeys_insert_trans env _ _ _ (mem_envKeys_of_lookup env _ _ h3) h2)
  | exact lex_nat_le_lt (Nat.le_refl _) (by first | (simp; omega) | simp | omega)
  | exact lex_nat_le_lt (freeKeys_append_le env _ _) (by first | (simp; omega) | simp | omega)

/-- The `filter_map`/`collect` over tuple elements or closure signature inputs
(threading the shared visited set): elements whose elevation fails are
dropped. -/
def list_as_rtk_lua_type_values (env : Env) (ts : RustTyList) (visited : Visited) :
    List TypeValue × Visited × List Diag :=
  match ts with
  | .nil => ([], [], [])
  | .cons t rest =>
    let r1 := type_as_rtk_lua_type_value env t visited
    let r2 := list_as_rtk_lua_type_values env rest (visited ++ r1.2.1)
    match r1.1 with
    | some v => (v :: r2.1, r1.2.1 ++ r2.2.1, r1.2.2 ++ r2.2.2)
    | none => (r2.1, r1.2.1 ++ r2.2.1, r1.2.2 ++ r2.2.2)
termination_by (freeKeys env visited, 4 * sizeOf ts)
decreasing_by
all_goals
  simp_wf
  first
  | exact Prod.Lex.left _ _
      (freeKeys_insert_trans env _ _ _ (mem_envKeys_of_lookup env _ _ h3) h2)
  | exact lex_nat_le_lt (Nat.le_refl _) (by first | (simp; omega) | simp | omega)
  | exact lex_nat_le_lt (freeKeys_append_le env _ _) (by first | (simp; omega) | simp | omega)

/-- `adt_type_as_rtk_lua_type_value` of type_elevate.rs: known-type folding
first; then the visited-set insertion, answering `RecursiveRef` when the
`(DefId, generic args)` key is already present; then the union rejection
(`dcx().err`, a recoverable skip); then enum/struct elevation. -/
def adt_type_as_rtk_lua_type_value (env : Env) (did : DefId) (args : RustTyList)
    (visited : Visited) : Option TypeValue × Visited × List Diag :=
  let def_path := env.loc did
  let fmt_def_path := fmt_rtk_location def_path
  match maybe_resolve_known_def_path env fmt_def_path args visited with
  | (some known, δ, d) => (some known, δ, d)
  | (none, δ, d) =>
    if h2 : (did, args) ∈ visited ++ δ then
      (some (.RecursiveRef def_path), δ, d)
    else
      match h3 : env.lookupAdt (did, args) with
      | none => (none, δ ++ [(did, args)], d)
      | some info =>
        match info.kind with
        | .unionKind =>
          (none, δ ++ [(did, args)],
           d ++ [.err ("encountered a union type `" ++ fmt_def_path ++ "` in a query")])
        | .enumKind =>
          let r := enum_type_as_rtk_lua_type_value env did info ((visited ++ δ) ++ [(did, args)])
          (r.1, δ ++ [(did, args)] ++ r.2.1, d ++ r.2.2)
        | .structKind =>
          let r := struct_type_as_rtk_lua_type_value env info.fields did
            ((visited ++ δ) ++ [(did, args)])
          (r.1, δ ++ [(did, args)] ++ r.2.1, d ++ r.2.2)
termination_by (freeKeys env visited, 4 * sizeOf args + 2)
decreasing_by
all_goals
  simp_wf
  first
  | exact Prod.Lex.left _ _
      (freeKeys_insert_trans env _ _ _ (mem_envKeys_of_lookup env _ _ h3) h2)
  | exact lex_nat_le_lt (Nat.le_refl _) (by first | (simp; omega) | simp | omega)
  | exact lex_nat_le_lt (freeKeys_append_le env _ _) (by first | (simp; omega) | simp | omega)

/-- `maybe_resolve_known_def_path` of type_elevate.rs: the known-type table.
Each arm of the source `match` on the formatted path is split into its own
function below; a failed attempt still returns the visited keys and
diagnostics of any generic-argument elevation it performed (the set is shared
mutable state in the source). -/
def maybe_resolve_known_def_path (env : Env) (def_path : String) (generic_args : RustTyList)
    (visited : Visited) : Option TypeValue × Visited × List Diag :=
  if def_path = "alloc::boxed::Box" then known_box_as_rtk_lua env generic_args visited
  else if def_path = "core::option::Option" then known_option_as_rtk_lua env generic_args visited
  else if def_path = "core::result::Result" then known_result_as_rtk_lua env generic_args visited
  else if def_path = "hashbrown::map::HashMap" ∨
      def_path = "std::collections::hash::map::HashMap" then
    known_hashmap_as_rtk_lua env generic_args visited
  else if def_path = "alloc::string::String" then (some .String, [], [])
  else if def_path = "alloc::vec::Vec" then known_vec_as_rtk_lua env generic_args visited
  else (none, [], [])
termination_by (freeKeys env visited, 4 * sizeOf generic_args + 1)
decreasing_by
all_goals
  simp_wf
  first
  | exact Prod.Lex.left _ _
      (freeKeys_insert_trans env _ _ _ (mem_envKeys_of_lookup env _ _ h3) h2)
  | exact lex_nat_le_lt (Nat.le_refl _) (by first | (simp; omega) | simp | omega)
  | exact lex_nat_le_lt (freeKeys_append_le env _ _) (by first | (simp; omega) | simp | omega)

/-- The `alloc::boxed::Box` arm: the owned pointer is transparent — elevate
the first generic argument. -/
def known_box_as_rtk_lua (env : Env) (generic_args : RustTyList) (visited : Visited) :
    Option TypeValue × Visited × List Diag :=
  match generic_args with
  | .cons a _ => type_as_rtk_lua_type_value env a visited
  | .nil => (none, [], [])
termination_by (freeKeys env visited, 4 * sizeOf generic_args)
decreasing_by
all_goals
  simp_wf
  first
  | exact Prod.Lex.left _ _
      (freeKeys_insert_trans env _ _ _ (mem_envKeys_of_lookup env _ _ h3) h2)
  | exact lex_nat_le_lt (Nat.le_refl _) (by first | (simp; omega) | simp | omega)
  | exact lex_nat_le_lt (freeKeys_append_le env _ _) (by first | (simp; omega) | simp | omega)

/-- The `core::option::Option` arm: wrap the elevated first argument. -/
def known_option_as_rtk_lua (env : Env) (generic_args : RustTyList) (visited : Visited) :
    Option TypeValue × Visited × List Diag :=
  match generic_args with
  | .cons a _ =>
    let r := type_as_rtk_lua_type_value env a visited
    (r.1.map .Option, r.2)
  | .nil => (none, [], [])
termination_by (freeKeys env visited, 4 * sizeOf generic_args)
decreasing_by
all_goals
  simp_wf
  first
  | exact Prod.Lex.left _ _
      (freeKeys_insert_trans env _ _ _ (mem_envKeys_of_lookup env _ _ h3) h2)
  | exact lex_nat_le_lt (Nat.le_refl _) (by first | (simp; omega) | simp | omega)
  | exact lex_nat_le_lt (freeKeys_append_le env _ _) (by first | (simp; omega) | simp | omega)

/-- The `core::result::Result` arm: both generic arguments must elevate. -/
def known_result_as_rtk_lua (env : Env) (generic_args : RustTyList) (visited : Visited) :
    Option TypeValue × Visited × List Diag :=
  match generic_args with
  | .cons a (.cons b _) => known_pair_as_rtk_lua env true a b visited
  | .cons a .nil =>
    let r1 := type_as_rtk_lua_type_value env a visited
    (none, r1.2)
  | .nil => (none, [], [])
termination_by (freeKeys env visited, 4 * sizeOf generic_args)
decreasing_by
all_goals
  simp_wf
  first
  | exact Prod.Lex.left _ _
      (freeKeys_insert_trans env _ _ _ (mem_envKeys_of_lookup env _ _ h3) h2)
  | exact lex_nat_le_lt (Nat.le_refl _) (by first | (simp; omega) | simp | omega)
  | exact lex_nat_le_lt (freeKeys_append_le env _ _) (by first | (simp; omega) | simp | omega)

/-- The `HashMap` arm (`hashbrown::map::HashMap` or
`std::collections::hash::map::HashMap`): both generic arguments must
elevate (any trailing allocator-style argument is ignored). -/
def known_hashmap_as_rtk_lua (env : Env) (generic_args : RustTyList) (visited : Visited) :
    Option TypeValue × Visited × List Diag :=
  match generic_args with
  | .cons a (.cons b _) => known_pair_as_rtk_lua env false a b visited
  | .cons a .nil =>
    let r1 := type_as_rtk_lua_type_value env a visited
    (none, r1.2)
  | .nil => (none, [], [])
termination_by (freeKeys env visited, 4 * sizeOf generic_args)
decreasing_by
all_goals
  simp_wf
  first
  | exact Prod.Lex.left _ _
      (freeKeys_insert_trans env _ _ _ (mem_envKeys_of_lookup env _ _ h3) h2)
  | exact lex_nat_le_lt (Nat.le_refl _) (by first | (simp; omega) | simp | omega)
  | exact lex_nat_le_lt (freeKeys_append_le env _ _) (by first | (simp; omega) | simp | omega)

/-- The `alloc::vec::Vec` arm: wrap the elevated first argument; the second
(allocator) argument is ignored. -/
def known_vec_as_rtk_lua (env : Env) (generic_args : RustTyList) (visited : Visited) :
    Option TypeValue × Visited × List Diag :=
  match generic_args with
  | .cons a _ =>
    let r := type_as_rtk_lua_type_value env a visited
    (r.1.map .Vec, r.2)
  | .nil => (none, [], [])
termination_by (freeKeys env visited, 4 * sizeOf generic_args)
decreasing_by
all_goals
  simp_wf
  first
  | exact Prod.Lex.left _ _
      (freeKeys_insert_trans env _ _ _ (mem_envKeys_of_lookup env _ _ h3) h2)
  | exact lex_nat_le_lt (Nat.le_refl _) (by first | (simp; omega) | simp | omega)
  | exact lex_nat_le_lt (freeKeys_append_le env _ _) (by first | (simp; omega) | simp | omega)

/-- The shared two-generic-argument body of the `Result` and `HashMap` arms:
elevate the first argument; on failure the `?` returns `None` with the state
mutations kept; otherwise elevate the second argument and combine (`Result`
when `isResult`, `HashMap` otherwise). -/
def known_pair_as_rtk_lua (env : Env) (isResult : Bool) (a b : RustTy)
    (visited : Visited) : Option TypeValue × Visited × List Diag :=
  let r1 := type_as_rtk_lua_type_value env a visited
  match r1.1 with
  | none => (none, r1.2)
  | some xt =>
    let r2 := type_as_rtk_lua_type_value env b (visited ++ r1.2.1)
    match r2.1 with
    | none => (none, r1.2.1 ++ r2.2.1, r1.2.2 ++ r2.2.2)
    | some yt =>
      (some (if isResult then .Result xt yt else .HashMap xt yt),
       r1.2.1 ++ r2.2.1, r1.2.2 ++ r2.2.2)
termination_by (freeKeys env visited, 4 * (sizeOf a + sizeOf b) + 1)
decreasing_by
all_goals
  simp_wf
  first
  | exact Prod.Lex.left _ _
      (freeKeys_insert_trans env _ _ _ (mem_envKeys_of_lookup env _ _ h3) h2)
  | exact lex_nat_le_lt (Nat.le_refl _) (by first | (simp; omega) | simp | omega)
  | exact lex_nat_le_lt (freeKeys_append_le env _ _) (by first | (simp; omega) | simp | omega)

/-- `enum_type_as_rtk_lua_type_value` of type_elevate.rs: every variant's
fields are elevated through `struct_type_as_rtk_lua_type_value` with the
enum's own `DefId`; the result is always `Some(Enum(..))`. -/
def enum_type_as_rtk_lua_type_value (env : Env) (did : DefId) (info : AdtInfo)
    (visited : Visited) : Option TypeValue × Visited × List Diag :=
  let location := env.loc did
  let r := enum_variants_as_rtk_lua env info.variants did visited
  (some (.Enum (.mk location r.1 (env.doc did) (env.attrs did))), r.2)
termination_by (freeKeys env visited, 4 * sizeOf info.variants + 1)
decreasing_by
all_goals
  simp_wf
  first
  | exact Prod.Lex.left _ _
      (freeKeys_insert_trans env _ _ _ (mem_envKeys_of_lookup env _ _ h3) h2)
  | exact lex_nat_le_lt (Nat.le_refl _) (by first | (simp; omega) | simp | omega)
  | exact lex_nat_le_lt (freeKeys_append_le env _ _) (by first | (simp; omega) | simp | omega)

/-- The `for variant in adt_def.variants()` loop of
`enum_type_as_rtk_lua_type_value`: each variant's payload is the struct
elevation of its fields (also for variants with no fields), so `value` is
always `some`. -/
def enum_variants_as_rtk_lua (env : Env) (vs : List VariantInfo) (did : DefId)
    (visited : Visited) : List EnumTypeValueVariant × Visited × List Diag :=
  match vs with
  | [] => ([], [], [])
  | ⟨vdid, vname, vfields⟩ :: rest =>
    let r1 := struct_type_as_rtk_lua_type_value env vfields did visited
    let variant : EnumTypeValueVariant := .mk vname r1.1 (env.doc vdid) (env.attrs vdid)
    let r2 := enum_variants_as_rtk_lua env rest did (visited ++ r1.2.1)
    (variant :: r2.1, r1.2.1 ++ r2.2.1, r1.2.2 ++ r2.2.2)
termination_by (freeKeys env visited, 4 * sizeOf vs)
decreasing_by
all_goals
  simp_wf
  first
  | exact Prod.Lex.left _ _
      (freeKeys_insert_trans env _ _ _ (mem_envKeys_of_lookup env _ _ h3) h2)
  | exact lex_nat_le_lt (Nat.le_refl _) (by first | (simp; omega) | simp | omega)
  | exact lex_nat_le_lt (freeKeys_append_le env _ _) (by first | (simp; omega) | simp | omega)

/-- `struct_type_as_rtk_lua_type_value` of type_elevate.rs: elevate the
fields in order and wrap them with the location, doc comment and attributes of
`did`; always returns `Some(Struct(..))`. -/
def struct_type_as_rtk_lua_type_value (env : Env) (fields : List FieldInfo) (did : DefId)
    (visited : Visited) : Option TypeValue × Visited × List Diag :=
  let r := struct_fields_as_rtk_lua env fields 0 visited
  (some (.Struct (.mk (env.loc did) r.1 (env.doc did) (env.attrs did))), r.2)
termination_by (freeKeys env visited, 4 * sizeOf fields + 1)
decreasing_by
all_goals
  simp_wf
  first
  | exact Prod.Lex.left _ _
      (freeKeys_insert_trans env _ _ _ (mem_envKeys_of_lookup env _ _ h3) h2)
  | exact lex_nat_le_lt (Nat.le_refl _) (by first | (simp; omega) | simp | omega)
  | exact lex_nat_le_lt (freeKeys_append_le env _ _) (by first | (simp; omega) | simp | omega)

/-- The `for (i, field) in fields.enumerate()` loop of
`struct_type_as_rtk_lua_type_value`: numeric idents become positional
(`Either::Left(i)`); a field whose own elevation fails is skipped with a
warning while the rest proceed. -/
def struct_fields_as_rtk_lua (env : Env) (fields : List FieldInfo) (i : Nat)
    (visited : Visited) : List StructTypeValueField × Visited × List Diag :=
  match fields with
  | [] => ([], [], [])
  | ⟨fdid, fnumeric, fident, fty⟩ :: rest =>
    let field_ident : Either Nat String :=
      if fnumeric then .Left i else .Right fident
    let r1 := type_as_rtk_lua_type_value env fty visited
    match r1.1 with
    | some value =>
      let fld : StructTypeValueField := .mk field_ident (env.doc fdid) (env.attrs fdid) value
      let r2 := struct_fields_as_rtk_lua env rest (i + 1) (visited ++ r1.2.1)
      (fld :: r2.1, r1.2.1 ++ r2.2.1, r1.2.2 ++ r2.2.2)
    | none =>
      let w := Diag.warn ("encountered an field type `" ++ env.dbgTy fty ++
        "` in a query, the rest of the fields will still be attempted but this one will be skipped.")
      let r2 := struct_fields_as_rtk_lua env rest (i + 1) (visited ++ r1.2.1)
      (r2.1, r1.2.1 ++ r2.2.1, r1.2.2 ++ [w] ++ r2.2.2)
termination_by (freeKeys env visited, 4 * sizeOf fields)
decreasing_by
all_goals
  simp_wf
  first
  | exact Prod.Lex.left _ _
      (freeKeys_insert_trans env _ _ _ (mem_envKeys_of_lookup env _ _ h3) h2)
  | exact lex_nat_le_lt (Nat.le_refl _) (by first | (simp; omega) | simp | omega)
  | exact lex_nat_le_lt (freeKeys_append_le env _ _) (by first | (simp; omega) | simp | omega)

end

/-- `RtkRustcDriverVersion` of versioning.rs.  The `PathBuf` of the `Local`
variant is modelled by its string. -/
inductive RtkRustcDriverVersion where
  | CratesIoLatest
  | CratesIo (major : Nat) (minor : Nat) (patch : Nat)
  | Local (path : String)
deriving DecidableEq, Repr

/-- Rust `str::split('.')`: split at every dot, keeping empty parts
(`""` splits to `[""]`, `"a."` to `["a", ""]`). -/
def split_on_dot : List Char → List (List Char)
  | [] => [[]]
  | c :: rest =>
    if c = '.' then [] :: split_on_dot rest
    else
      match split_on_dot rest with
      | p :: ps => (c :: p) :: ps
      | [] => [[c]]

/-- Decimal digits accumulated to a number. -/
def digits_to_nat : List Char → Nat → Nat
  | [], acc => acc
  | c :: rest, acc => digits_to_nat rest (acc * 10 + (c.toNat - 48))

/-- Model of Rust `u32::from_str`: an optional leading `+`, then one or more
ASCII digits, rejecting the empty input, any non-digit, and values above
`u32::MAX`. -/
def parse_u32 (s : String) : Option Nat :=
  let cs := s.toList
  let cs :=
    match cs with
    | '+' :: rest => rest
    | other => other
  if cs.isEmpty then none
  else if cs.all (fun c => c.isDigit) then
    let n := digits_to_nat cs 0
    if n < 4294967296 then some n else none
  else none

/-- Rust `str::trim_start_matches("local:")`: strip every leading repetition
of the `local:` marker. -/
def trim_local_marker : List Char → List Char
  | 'l' :: 'o' :: 'c' :: 'a' :: 'l' :: ':' :: rest => trim_local_marker rest
  | cs => cs

/-- Whether the string starts with `local:`. -/
def starts_with_local (s : String) : Bool :=
  match s.toList with
  | 'l' :: 'o' :: 'c' :: 'a' :: 'l' :: ':' :: _ => true
  | _ => false

/-- `RtkRustcDriverVersion::from_lua` of versioning.rs, on the string the Lua
value renders to.  `mlua::Error::external(msg)` is modelled as
`Except.error msg`. -/
def RtkRustcDriverVersion.from_lua (value_str : String) :
    Except String RtkRustcDriverVersion :=
  if value_str = "latest" then .ok .CratesIoLatest
  else if starts_with_local value_str then
    .ok (.Local (String.mk (trim_local_marker value_str.toList)))
  else
    let parts := (split_on_dot value_str.toList).map (fun cs => String.mk cs)
    if parts.length ≠ 3 then
      .error ("Invalid version format: " ++ value_str ++
        ". Expected format: major.minor.patch")
    else
      match parse_u32 (parts.getD 0 "") with
      | none => .error ("Invalid major version: " ++ parts.getD 0 "")
      | some major =>
        match parse_u32 (parts.getD 1 "") with
        | none => .error ("Invalid minor version: " ++ parts.getD 1 "")
        | some minor =>
          match parse_u32 (parts.getD 2 "") with
          | none => .error ("Invalid patch version: " ++ parts.getD 2 "")
          | some patch => .ok (.CratesIo major minor patch)

/-- `MethodCallQuery` of api.rs: an optionally nested query; `parent`
requires the call to be invoked on the result of a call matching it. -/
inductive MethodCallQuery where
  | mk (parent : Option MethodCallQuery) (location : Location)

/-- The `parent` field. -/
def MethodCallQuery.parent : MethodCallQuery → Option MethodCallQuery
  | .mk p _ => p

/-- The `location` field. -/
def MethodCallQuery.location : MethodCallQuery → Location
  | .mk _ l => l

mutual
/-- The `Value` tagged union of api.rs together with `MethodCall` and
`FunctionCall`.  The `f64` payload of `FloatLiteral` is modelled by its bit
pattern (never constructed by the embedded code paths). -/
inductive Value where
  | StringLiteral (s : String)
  | IntegerLiteral (n : Int)
  | FloatLiteral (bits : Nat)
  | FunctionCall (f : FunctionCallV)
  | MethodCall (m : MethodCallV)
  | Type (t : TypeValue)
inductive FunctionCallV where
  | mk (location : Location) (args : List Value) (in_item_id : String)
inductive MethodCallV where
  | mk (origin : MethodCallQuery) (args : List Value) (in_item_id : String)
end

/-- The oracle data attached to every HIR expression node: the `DefId` owner
of its `HirId` (for `rtk_item_id`), the `def_path_of_expr` result (the typeck
resolution oracle), and the static type `typeck.expr_ty` reports for it. -/
structure ExprInfo where
  owner : DefId
  resolved : Option DefPath
  staticTy : RustTy

/-- The HIR expression shapes that `expr_elevate.rs` and `queries.rs`
distinguish.  `strLit` is `ExprKind::Lit` with `LitKind::Str`; every other
literal falls, like any unlisted kind, into `otherExpr` (the `_` arm that
reports the static type).  `closureExpr` carries the oracle-resolved
unclosured signature of the closure. -/
inductive HExpr where
  | strLit (info : ExprInfo) (s : String)
  | methodCall (info : ExprInfo) (receiver : HExpr) (args : List HExpr)
  | call (info : ExprInfo) (callee : HExpr) (args : List HExpr)
  | closureExpr (info : ExprInfo) (cargs : RustTyList) (cret : RustTy)
  | otherExpr (info : ExprInfo)

/-- The oracle record of a node. -/
def HExpr.info : HExpr → ExprInfo
  | .strLit i _ => i
  | .methodCall i _ _ => i
  | .call i _ _ => i
  | .closureExpr i _ _ => i
  | .otherExpr i => i

/-- `def_path_of_expr` of path.rs, as the typeck oracle recorded per node. -/
def def_path_of_expr (e : HExpr) : Option DefPath :=
  e.info.resolved

/-- `HirId::rtk_item_id` of rtk.rs: `"krate/index"` of the owner. -/
def rtk_item_id (did : DefId) : String :=
  toString did.krate ++ "/" ++ toString did.index

/-- The closure-argument loop of the `ExprKind::Closure` arm of
`expr_elevate.rs`: every signature input is elevated with a fresh empty
visited set (`&mut FxHashSet::default()` is created inside the closure). -/
def closure_args_fresh (env : Env) (ts : RustTyList) : List TypeValue × List Diag :=
  match ts with
  | .nil => ([], [])
  | .cons t rest =>
    let r := type_as_rtk_lua_type_value env t []
    let rr := closure_args_fresh env rest
    match r.1 with
    | some v => (v :: rr.1, r.2.2 ++ rr.2)
    | none => (rr.1, r.2.2 ++ rr.2)

mutual

/-- `as_rtk_lua_value` of expr_elevate.rs: elevate an expression into a
`Value`.  The `Except` layer carries a `dcx().fatal` raised below
(`def_path_to_rtk_location` on a nested-impl path); the pair is the optional
value and the emitted diagnostics. -/
def as_rtk_lua_value (env : Env) (e : HExpr) : Except String (Option Value × List Diag) :=
  match e with
  | .strLit _ s => .ok (some (.StringLiteral s), [])
  | .methodCall info receiver args =>
    match as_rtk_lua_value env receiver with
    | .error msg => .error msg
    | .ok (rv, d1) =>
      let parent : Option MethodCallQuery :=
        match rv with
        | some (.MethodCall (.mk origin _ _)) => some origin
        | _ => none
      match info.resolved with
      | none => .ok (none, d1)
      | some dp =>
        match def_path_to_rtk_location dp with
        | .error msg => .error msg
        | .ok loc =>
          match args_as_rtk_lua_values env args with
          | .error msg => .error msg
          | .ok (avs, d2) =>
            .ok (some (.MethodCall (.mk (.mk parent loc) avs (rtk_item_id info.owner))),
              d1 ++ d2)
  | .call info callee args =>
    match def_path_of_expr callee with
    | none => .ok (none, [])
    | some dp =>
      match def_path_to_rtk_location dp with
      | .error msg => .error msg
      | .ok loc =>
        match args_as_rtk_lua_values env args with
        | .error msg => .error msg
        | .ok (avs, d2) =>
          .ok (some (.FunctionCall (.mk loc avs (rtk_item_id info.owner))), d2)
  | .closureExpr _ cargs cret =>
    let ra := closure_args_fresh env cargs
    let rr := type_as_rtk_lua_type_value env cret []
    .ok (some (.Type (.Closure (.mk ra.1 rr.1))), ra.2 ++ rr.2.2)
  | .otherExpr info =>
    let r := type_as_rtk_lua_type_value env info.staticTy []
    .ok (r.1.map .Type, r.2.2)
termination_by 2 * sizeOf e

/-- The `filter_map` over call arguments shared by the method-call and
plain-call arms: arguments whose own elevation fails are dropped. -/
def args_as_rtk_lua_values (env : Env) (es : List HExpr) :
    Except String (List Value × List Diag) :=
  match es with
  | [] => .ok ([], [])
  | a :: rest =>
    match as_rtk_lua_value env a with
    | .error msg => .error msg
    | .ok (v, d1) =>
      match args_as_rtk_lua_values env rest with
      | .error msg => .error msg
      | .ok (vs, d2) =>
        match v with
        | some x => .ok (x :: vs, d1 ++ d2)
        | none => .ok (vs, d1 ++ d2)
termination_by 2 * sizeOf es

/-- `method_call_from_expr` of queries.rs: match one method-call expression
against a `MethodCallQuery`.  Non-method-call expressions never match; a
`parent` query is enforced against the immediate receiver only. -/
def method_call_from_expr (env : Env) (mc : MethodCallQuery) (e : HExpr) :
    Except String (Option MethodCallV × List Diag) :=
  match e with
  | .methodCall info receiver args =>
    match mc.parent with
    | some mcq =>
      match method_call_from_expr env mcq receiver with
      | .error msg => .error msg
      | .ok (none, d1) => .ok (none, d1)
      | .ok (some _, d1) => method_call_resolved env mc info args d1
    | none => method_call_resolved env mc info args []
  | _ => .ok (none, [])
termination_by 2 * sizeOf e

/-- The tail of `method_call_from_expr` after the parent check: resolve the
call's declaration path to a `Location`, require exact equality with the
query's `Location`, emitting the "did you mean" warning when only the last
path segment coincides; on a match, elevate the arguments and build the
`MethodCall` with the query itself as `origin`. -/
def method_call_resolved (env : Env) (mc : MethodCallQuery) (info : ExprInfo)
    (args : List HExpr) (d1 : List Diag) :
    Except String (Option MethodCallV × List Diag) :=
  match info.resolved with
  | none => .ok (none, d1)
  | some dp =>
    match def_path_to_rtk_location dp with
    | .error msg => .error msg
    | .ok def_path_loc =>
      if def_path_loc ≠ mc.location then
        if def_path_loc.path.getLast? = mc.location.path.getLast? then
          .ok (none, d1 ++ [.warn ("query for `" ++ fmt_rtk_location mc.location ++
            "` likely intended to match against `" ++ fmt_rtk_location def_path_loc ++
            "`, consider changing the impl block number")])
        else .ok (none, d1)
      else
        match args_as_rtk_lua_values env args with
        | .error msg => .error msg
        | .ok (avs, d2) =>
          .ok (some (.mk mc avs (rtk_item_id info.owner)), d1 ++ d2)

end

/-- A Lua table key (the bridge only ever uses string keys and the positive
integer keys of sequence tables). -/
inductive LuaKey where
  | str (s : String)
  | num (n : Int)
deriving DecidableEq, Repr

/-- The Lua values the bridge produces: nil, booleans, integers, strings, and
tables as key-value entry lists in insertion order. -/
inductive LuaValue where
  | nil
  | boolean (b : Bool)
  | integer (n : Int)
  | str (s : String)
  | table (entries : List (LuaKey × LuaValue))

/-- `table.set(k, v)` of mlua while building a fresh table: assigning nil
stores nothing (indexing an absent key yields nil). -/
def tset (entries : List (LuaKey × LuaValue)) (k : LuaKey) (v : LuaValue) :
    List (LuaKey × LuaValue) :=
  match v with
  | .nil => entries
  | _ => entries ++ [(k, v)]

/-- Lookup in a table entry list; absent keys read as nil. -/
def lookup_entries : List (LuaKey × LuaValue) → LuaKey → LuaValue
  | [], _ => .nil
  | (k2, v) :: rest, k => if k2 = k then v else lookup_entries rest k

/-- Table indexing: `t[k]`, nil on absent keys and non-tables. -/
def tget (v : LuaValue) (k : LuaKey) : LuaValue :=
  match v with
  | .table entries => lookup_entries entries k
  | _ => .nil

/-- The `{variant_name, variant_data}` tagged pair produced for every enum
variant by the `impl_enum_into_lua!` macro of macros.rs. -/
def tagged_pair (variant_name : String) (variant_data : LuaValue) : LuaValue :=
  .table (tset (tset [] (.str "variant_name") (.str variant_name))
    (.str "variant_data") variant_data)

/-- A Lua sequence table `{1 = v1, 2 = v2, ...}` (how a Rust `Vec` marshals). -/
def lua_seq_entries : List LuaValue → Nat → List (LuaKey × LuaValue)
  | [], _ => []
  | v :: rest, i => (.num i, v) :: lua_seq_entries rest (i + 1)

/-- Marshal a list as a Lua sequence table. -/
def lua_seq (vs : List LuaValue) : LuaValue :=
  .table (lua_seq_entries vs 1)

/-- An `Option` marshals to the value or nil. -/
def lua_of_option {α : Type} (f : α → LuaValue) : Option α → LuaValue
  | none => .nil
  | some x => f x

/-- `mlua::Either` marshals whichever side is active (the positional index as
an integer, the name as a string). -/
def either_into_lua : Either Nat String → LuaValue
  | .Left n => .integer n
  | .Right s => .str s

/-- `impl_into_lua! Location { crate_name, path, impl_block_number }`. -/
def Location.into_lua (l : Location) : LuaValue :=
  .table (tset (tset (tset [] (.str "crate_name") (.str l.crate_name))
    (.str "path") (lua_seq (l.path.map LuaValue.str)))
    (.str "impl_block_number") (lua_of_option (fun n => .integer n) l.impl_block_number))

/-- `impl_into_lua! Attribute { name, value_str }`. -/
def Attribute.into_lua (a : Attribute) : LuaValue :=
  .table (tset (tset [] (.str "name") (.str a.name))
    (.str "value_str") (lua_of_option LuaValue.str a.value_str))

mutual

/-- `impl_enum_into_lua! TypeValue { .. }` of api.rs: every variant becomes a
`{variant_name, variant_data}` tagged pair.  Scalar variants carry nil
variant data, and so do `HashMap(_, _)` and `Result(_, _)`, whose payload the
source explicitly replaces with `mlua::Nil`; every other payload is
marshalled. -/
def TypeValue.into_lua : TypeValue → LuaValue
  | .String => tagged_pair "String" .nil
  | .U8 => tagged_pair "U8" .nil
  | .U16 => tagged_pair "U16" .nil
  | .U32 => tagged_pair "U32" .nil
  | .U64 => tagged_pair "U64" .nil
  | .U128 => tagged_pair "U128" .nil
  | .Usize => tagged_pair "Usize" .nil
  | .I8 => tagged_pair "I8" .nil
  | .I16 => tagged_pair "I16" .nil
  | .I32 => tagged_pair "I32" .nil
  | .I64 => tagged_pair "I64" .nil
  | .I128 => tagged_pair "I128" .nil
  | .Isize => tagged_pair "Isize" .nil
  | .F32 => tagged_pair "F32" .nil
  | .F64 => tagged_pair "F64" .nil
  | .Bool => tagged_pair "Bool" .nil
  | .HashMap _ _ => tagged_pair "HashMap" .nil
  | .Vec t => tagged_pair "Vec" t.into_lua
  | .Result _ _ => tagged_pair "Result" .nil
  | .Struct s => tagged_pair "Struct" s.into_lua
  | .Enum e => tagged_pair "Enum" e.into_lua
  | .Closure c => tagged_pair "Closure" c.into_lua
  | .Function f => tagged_pair "Function" f.into_lua
  | .Option t => tagged_pair "Option" t.into_lua
  | .Tuple elements => tagged_pair "Tuple" (lua_seq (type_values_into_lua elements))
  | .RecursiveRef location => tagged_pair "RecursiveRef" location.into_lua

/-- Marshal a list of `TypeValue`s (the `Tuple` payload). -/
def type_values_into_lua : List TypeValue → List LuaValue
  | [] => []
  | t :: rest => t.into_lua :: type_values_into_lua rest

/-- `impl_into_lua! StructTypeValue { location, fields, doc_comment,
attributes }`. -/
def StructTypeValue.into_lua : StructTypeValue → LuaValue
  | .mk location fields doc_comment attributes =>
    .table (tset (tset (tset (tset [] (.str "location") location.into_lua)
      (.str "fields") (lua_seq (struct_fields_into_lua fields)))
      (.str "doc_comment") (lua_of_option LuaValue.str doc_comment))
      (.str "attributes") (lua_seq (attributes.map Attribute.into_lua)))

/-- Marshal a struct's field list. -/
def struct_fields_into_lua : List StructTypeValueField → List LuaValue
  | [] => []
  | f :: rest => f.into_lua :: struct_fields_into_lua rest

/-- `impl_into_lua! StructTypeValueField { name, doc_comment, attributes,
value }`. -/
def StructTypeValueField.into_lua : StructTypeValueField → LuaValue
  | .mk name doc_comment attributes value =>
    .table (tset (tset (tset (tset [] (.str "name") (either_into_lua name))
      (.str "doc_comment") (lua_of_option LuaValue.str doc_comment))
      (.str "attributes") (lua_seq (attributes.map Attribute.into_lua)))
      (.str "value") value.into_lua)

/-- `impl_into_lua! EnumTypeValue { location, variants, doc_comment,
attributes }`. -/
def EnumTypeValue.into_lua : EnumTypeValue → LuaValue
  | .mk location variants doc_comment attributes =>
    .table (tset (tset (tset (tset [] (.str "location") location.into_lua)
      (.str "variants") (lua_seq (enum_variants_into_lua variants)))
      (.str "doc_comment") (lua_of_option LuaValue.str doc_comment))
      (.str "attributes") (lua_seq (attributes.map Attribute.into_lua)))

/-- Marshal an enum's variant list. -/
def enum_variants_into_lua : List EnumTypeValueVariant → List LuaValue
  | [] => []
  | v :: rest => v.into_lua :: enum_variants_into_lua rest

/-- `impl_into_lua! EnumTypeValueVariant { name, value, doc_comment,
attributes }`. -/
def EnumTypeValueVariant.into_lua : EnumTypeValueVariant → LuaValue
  | .mk name value doc_comment attributes =>
    .table (tset (tset (tset (tset [] (.str "name") (.str name))
      (.str "value") (match value with
        | some t => t.into_lua
        | none => .nil))
      (.str "doc_comment") (lua_of_option LuaValue.str doc_comment))
      (.str "attributes") (lua_seq (attributes.map Attribute.into_lua)))

/-- `impl_into_lua! ClosureTypeValue { args, return_type }`. -/
def ClosureTypeValue.into_lua : ClosureTypeValue → LuaValue
  | .mk args return_type =>
    .table (tset (tset [] (.str "args") (lua_seq (type_values_into_lua args)))
      (.str "return_type") (match return_type with
        | some t => t.into_lua
        | none => .nil))

/-- `impl_into_lua! FunctionTypeValue { location, args_struct, return_type,
item_id, attributes, doc_comment, is_async }`. -/
def FunctionTypeValue.into_lua : FunctionTypeValue → LuaValue
  | .mk location args_struct return_type item_id attributes doc_comment is_async =>
    .table (tset (tset (tset (tset (tset (tset (tset []
      (.str "location") location.into_lua)
      (.str "args_struct") args_struct.into_lua)
      (.str "return_type") (match return_type with
        | some t => t.into_lua
        | none => .nil))
      (.str "item_id") (.str item_id))
      (.str "attributes") (lua_seq (attributes.map Attribute.into_lua)))
      (.str "doc_comment") (lua_of_option LuaValue.str doc_comment))
      (.str "is_async") (.boolean is_async))

end

/-! Helper lemmas about the elevator. -/

theorem maybe_resolve_not_known (env : Env) (p : String) (args : RustTyList)
    (vis : Visited) (h : p ∉ knownDefPaths) :
    maybe_resolve_known_def_path env p args vis = (none, [], []) := by
  simp only [knownDefPaths, List.mem_cons, List.mem_singleton, not_or,
    List.not_mem_nil] at h
  obtain ⟨h1, h2, h3, h4, h5, h6, h7, -⟩ := h
  rw [maybe_resolve_known_def_path]
  rw [if_neg h1, if_neg h2, if_neg h3, if_neg (not_or.mpr ⟨h4, h5⟩), if_neg h6, if_neg h7]

theorem type_as_adt (env : Env) (did : DefId) (args : RustTyList) (vis : Visited) :
    type_as_rtk_lua_type_value env (.adt did args) vis =
      adt_type_as_rtk_lua_type_value env did args vis := by
  simp only [type_as_rtk_lua_type_value]

theorem adt_revisit_helper (env : Env) (did : DefId) (args : RustTyList) (vis : Visited)
    (hnk : fmt_rtk_location (env.loc did) ∉ knownDefPaths)
    (hmem : (did, args) ∈ vis) :
    adt_type_as_rtk_lua_type_value env did args vis =
      (some (.RecursiveRef (env.loc did)), [], []) := by
  have hmr := maybe_resolve_not_known env (fmt_rtk_location (env.loc did)) args vis hnk
  simp only [adt_type_as_rtk_lua_type_value, hmr]
  simp only [List.append_nil]
  rw [dif_pos hmem]

theorem adt_enter_helper (env : Env) (did : DefId) (args : RustTyList) (vis : Visited)
    (info : AdtInfo)
    (hnk : fmt_rtk_location (env.loc did) ∉ knownDefPaths)
    (hl : env.lookupAdt (did, args) = some info)
    (hku : info.kind ≠ .unionKind)
    (hnv : (did, args) ∉ vis) :
    ∃ v δ d, adt_type_as_rtk_lua_type_value env did args vis =
        (some v, (did, args) :: δ, d) ∧
      ((∃ s, v = .Struct s) ∨ (∃ e, v = .Enum e)) := by
  have hmr := maybe_resolve_not_known env (fmt_rtk_location (env.loc did)) args vis hnk
  simp only [adt_type_as_rtk_lua_type_value, hmr]
  rw [dif_neg (by simpa using hnv)]
  rw [hl]
  cases hk : info.kind with
  | unionKind => exact absurd hk hku
  | enumKind =>
    simp only [hk, enum_type_as_rtk_lua_type_value]
    exact ⟨_, _, _, rfl, .inr ⟨_, rfl⟩⟩
  | structKind =>
    simp only [hk, struct_type_as_rtk_lua_type_value]
    exact ⟨_, _, _, rfl, .inl ⟨_, rfl⟩⟩

/-- C1: elevation of a nominal type whose `(declaration, generic args)` key is
already in the visited set — and whose path is not folded by the known-type
table — returns `RecursiveRef` of that declaration's `Location` immediately:
no new visited keys, no diagnostics, no recursion into the body.  Together
with the totality of `type_as_rtk_lua_type_value` (a well-founded recursion on
the snapshot keys not yet visited), this is the termination mechanism for
self-referential types, and every such chain ends in a `RecursiveRef` to the
repeated declaration. -/
theorem c1_revisited_nominal_type_returns_recursive_ref
    (env : Env) (did : DefId) (args : RustTyList) (visited : Visited)
    (hnk : fmt_rtk_location (env.loc did) ∉ knownDefPaths)
    (hmem : (did, args) ∈ visited) :
    type_as_rtk_lua_type_value env (.adt did args) visited =
      (some (.RecursiveRef (env.loc did)), [], []) := by
  rw [type_as_adt]
  exact adt_revisit_helper env did args visited hnk hmem

/-- Snapshot for the C1 witness: one nominal type `c::T` already visited. -/
def env_c1 : Env :=
  { adts := [],
    loc := fun _ => ⟨"c", ["T"], none⟩,
    attrs := fun _ => [],
    doc := fun _ => none,
    dbgTy := fun _ => "" }

theorem c1_witness :
    type_as_rtk_lua_type_value env_c1 (.adt ⟨0, 0⟩ .nil) [(⟨0, 0⟩, .nil)] =
      (some (.RecursiveRef ⟨"c", ["T"], none⟩), [], []) :=
  c1_revisited_nominal_type_returns_recursive_ref env_c1 ⟨0, 0⟩ .nil
    [(⟨0, 0⟩, .nil)] (by decide) (by decide)

/-- Snapshot for C2: struct `c::P` with two sibling fields `a` and `b`, both
of the non-self-referential nominal struct type `c::S` (one `bool` field). -/
def env_c2 : Env :=
  { adts :=
      [((⟨0, 1⟩, .nil),
        ⟨.structKind,
         [⟨⟨0, 11⟩, false, "a", .adt ⟨0, 2⟩ .nil⟩, ⟨⟨0, 12⟩, false, "b", .adt ⟨0, 2⟩ .nil⟩],
         []⟩),
       ((⟨0, 2⟩, .nil), ⟨.structKind, [⟨⟨0, 21⟩, false, "x", .bool⟩], []⟩)],
    loc := fun did =>
      if did = ⟨0, 1⟩ then ⟨"c", ["P"], none⟩
      else if did = ⟨0, 2⟩ then ⟨"c", ["S"], none⟩
      else ⟨"?", [], none⟩,
    attrs := fun _ => [],
    doc := fun _ => none,
    dbgTy := fun _ => "" }

/-- C2 counterexample: elevating `c::P` (two sibling fields of the same
non-self-referential nominal type `c::S`) does NOT elevate both fields to the
full `TypeValue`: the visited set is never popped between sibling branches, so
the second field elevates to `RecursiveRef(c::S)` instead of the full
struct. -/
theorem c2_counterexample :
    type_as_rtk_lua_type_value env_c2 (.adt ⟨0, 1⟩ .nil) [] =
      (some (.Struct (.mk ⟨"c", ["P"], none⟩
        [.mk (.Right "a") none []
          (.Struct (.mk ⟨"c", ["S"], none⟩ [.mk (.Right "x") none [] .Bool] none [])),
         .mk (.Right "b") none [] (.RecursiveRef ⟨"c", ["S"], none⟩)] none [])),
       [(⟨0, 1⟩, .nil), (⟨0, 2⟩, .nil)], []) := by
  simp [type_as_rtk_lua_type_value, adt_type_as_rtk_lua_type_value,
    maybe_resolve_known_def_path, struct_type_as_rtk_lua_type_value,
    struct_fields_as_rtk_lua, env_c2, Env.lookupAdt, lookup_adt_list,
    show fmt_rtk_location ⟨"c", ["P"], none⟩ = "c::P" from rfl,
    show fmt_rtk_location ⟨"c", ["S"], none⟩ = "c::S" from rfl]

/-- C2 amended: the cycle-detection set is not stack-scoped but persists for
the whole elevation (the source only ever inserts).  Consequently, for every
struct with two sibling fields of the same nominal type (present in the
snapshot, not known-folded, not a union, not yet visited), the first field
elevates to a full `Struct`/`Enum` value and the second field is replaced by
`RecursiveRef` of that type's `Location`. -/
theorem c2_visited_set_persists_across_siblings
    (env : Env) (did : DefId) (args : RustTyList) (info : AdtInfo)
    (fdid1 fdid2 : DefId) (fid1 fid2 : String) (i : Nat) (vis : Visited)
    (hnk : fmt_rtk_location (env.loc did) ∉ knownDefPaths)
    (hl : env.lookupAdt (did, args) = some info)
    (hku : info.kind ≠ .unionKind)
    (hnv : (did, args) ∉ vis) :
    ∃ v1 δ d,
      struct_fields_as_rtk_lua env
        [⟨fdid1, false, fid1, .adt did args⟩, ⟨fdid2, false, fid2, .adt did args⟩] i vis =
        ([.mk (.Right fid1) (env.doc fdid1) (env.attrs fdid1) v1,
          .mk (.Right fid2) (env.doc fdid2) (env.attrs fdid2)
            (.RecursiveRef (env.loc did))], δ, d) ∧
      v1 ≠ .RecursiveRef (env.loc did) := by
  obtain ⟨v, δ', d', heq, hshape⟩ := adt_enter_helper env did args vis info hnk hl hku hnv
  have hre : adt_type_as_rtk_lua_type_value env did args (vis ++ ((did, args) :: δ')) =
      (some (.RecursiveRef (env.loc did)), [], []) :=
    adt_revisit_helper env did args _ hnk
      (List.mem_append_right _ (List.mem_cons_self _ _))
  refine ⟨v, (did, args) :: δ', d', ?_, ?_⟩
  · simp [struct_fields_as_rtk_lua, type_as_adt, heq, hre]
  · rcases hshape with ⟨s, rfl⟩ | ⟨e, rfl⟩ <;> simp

theorem c2_witness :
    ∃ v1 δ d,
      struct_fields_as_rtk_lua env_c2
        [⟨⟨0, 91⟩, false, "a", .adt ⟨0, 2⟩ .nil⟩, ⟨⟨0, 92⟩, false, "b", .adt ⟨0, 2⟩ .nil⟩]
        0 [] =
        ([.mk (.Right "a") none [] v1,
          .mk (.Right "b") none [] (.RecursiveRef ⟨"c", ["S"], none⟩)], δ, d) ∧
      v1 ≠ .RecursiveRef ⟨"c", ["S"], none⟩ :=
  c2_visited_set_persists_across_siblings env_c2 ⟨0, 2⟩ .nil
    ⟨.structKind, [⟨⟨0, 21⟩, false, "x", .bool⟩], []⟩ ⟨0, 91⟩ ⟨0, 92⟩ "a" "b" 0 []
    (by decide) rfl (by decide) (by decide)

/-- C3 amended: a union type encountered where a full type is required is NOT
fatal: the elevator emits a recoverable `dcx().err` diagnostic naming the
union and returns `None` for that node (the caller then skips the node, e.g.
a containing struct drops the field with a warning); the process is not
terminated. -/
theorem c3_union_type_err_and_skip
    (env : Env) (did : DefId) (args : RustTyList) (vis : Visited) (info : AdtInfo)
    (hnk : fmt_rtk_location (env.loc did) ∉ knownDefPaths)
    (hl : env.lookupAdt (did, args) = some info)
    (hu : info.kind = .unionKind)
    (hnv : (did, args) ∉ vis) :
    type_as_rtk_lua_type_value env (.adt did args) vis =
      (none, [(did, args)],
       [.err ("encountered a union type `" ++ fmt_rtk_location (env.loc did) ++
         "` in a query")]) := by
  rw [type_as_adt]
  have hmr := maybe_resolve_not_known env (fmt_rtk_location (env.loc did)) args vis hnk
  simp only [adt_type_as_rtk_lua_type_value, hmr]
  simp only [List.append_nil]
  rw [dif_neg hnv]
  rw [hl]
  simp only [hu]
  rfl

/-- Snapshot for C3: struct `c::W` whose first field has the union type
`c::U` and whose second field is `bool`. -/
def env_c3 : Env :=
  { adts :=
      [((⟨0, 3⟩, .nil),
        ⟨.structKind,
         [⟨⟨0, 31⟩, false, "u", .adt ⟨0, 4⟩ .nil⟩, ⟨⟨0, 32⟩, false, "y", .bool⟩],
         []⟩),
       ((⟨0, 4⟩, .nil), ⟨.unionKind, [], []⟩)],
    loc := fun did =>
      if did = ⟨0, 3⟩ then ⟨"c", ["W"], none⟩
      else if did = ⟨0, 4⟩ then ⟨"c", ["U"], none⟩
      else ⟨"?", [], none⟩,
    attrs := fun _ => [],
    doc := fun _ => none,
    dbgTy := fun _ => "U" }

/-- C3 counterexample: elevating a struct containing the union `c::U` does not
terminate the process — the union node yields a recoverable `Diag.err`
(`dcx().err`), the field is skipped with a warning, and elevation of the rest
of the struct continues and succeeds.  No fatal (process-terminating) channel
is involved: the function returns normally. -/
theorem c3_counterexample :
    type_as_rtk_lua_type_value env_c3 (.adt ⟨0, 3⟩ .nil) [] =
      (some (.Struct (.mk ⟨"c", ["W"], none⟩
        [.mk (.Right "y") none [] .Bool] none [])),
       [(⟨0, 3⟩, .nil), (⟨0, 4⟩, .nil)],
       [.err "encountered a union type `c::U` in a query",
        .warn "encountered an field type `U` in a query, the rest of the fields will still be attempted but this one will be skipped."]) := by
  simp [type_as_rtk_lua_type_value, adt_type_as_rtk_lua_type_value,
    maybe_resolve_known_def_path, struct_type_as_rtk_lua_type_value,
    struct_fields_as_rtk_lua, env_c3, Env.lookupAdt, lookup_adt_list,
    show fmt_rtk_location ⟨"c", ["W"], none⟩ = "c::W" from rfl,
    show fmt_rtk_location ⟨"c", ["U"], none⟩ = "c::U" from rfl]

theorem c3_witness :
    type_as_rtk_lua_type_value env_c3 (.adt ⟨0, 4⟩ .nil) [] =
      (none, [(⟨0, 4⟩, .nil)],
       [.err ("encountered a union type `" ++ fmt_rtk_location (env_c3.loc ⟨0, 4⟩) ++
         "` in a query")]) :=
  c3_union_type_err_and_skip env_c3 ⟨0, 4⟩ .nil [] ⟨.unionKind, [], []⟩
    (by decide) rfl (by decide) (by decide)

/-- Snapshot for C7: enum `c::E` with a single unit variant `A`. -/
def env_c7 : Env :=
  { adts := [((⟨0, 5⟩, .nil), ⟨.enumKind, [], [⟨⟨0, 51⟩, "A", []⟩]⟩)],
    loc := fun did =>
      if did = ⟨0, 5⟩ then ⟨"c", ["E"], none⟩ else ⟨"?", [], none⟩,
    attrs := fun _ => [],
    doc := fun _ => none,
    dbgTy := fun _ => "" }

/-- C7: elevating an enum whose variant `A` is declared with no fields does
NOT give that variant a `none` payload: the source routes every variant —
including unit variants — through `struct_type_as_rtk_lua_type_value`, which
always returns `Some(Struct(..))`, so the unit variant's `value` is
`some` of an empty-field struct.  This contradicts the spec and the doc
comment on `EnumTypeValueVariant.value` itself ("otherwise its just a unit
variant"). -/
theorem c7_unit_variant_payload_is_empty_struct :
    type_as_rtk_lua_type_value env_c7 (.adt ⟨0, 5⟩ .nil) [] =
      (some (.Enum (.mk ⟨"c", ["E"], none⟩
        [.mk "A" (some (.Struct (.mk ⟨"c", ["E"], none⟩ [] none []))) none []]
        none [])),
       [(⟨0, 5⟩, .nil)], []) := by
  simp [type_as_rtk_lua_type_value, adt_type_as_rtk_lua_type_value,
    maybe_resolve_known_def_path, enum_type_as_rtk_lua_type_value,
    enum_variants_as_rtk_lua, struct_type_as_rtk_lua_type_value,
    struct_fields_as_rtk_lua, env_c7, Env.lookupAdt, lookup_adt_list,
    show fmt_rtk_location ⟨"c", ["E"], none⟩ = "c::E" from rfl]

/-- Whether a declaration-path segment is an impl-block segment. -/
def is_impl_seg (seg : DisambiguatedDefPathData) : Bool :=
  match seg.data with
  | .impl => true
  | .other _ => false

/-- The strings the non-impl segments push onto the module path, in order. -/
def seg_strings (segs : List DisambiguatedDefPathData) : List String :=
  segs.filterMap (fun seg =>
    match seg.data with
    | .impl => none
    | .other s => some s)

theorem def_path_fold_no_impl (segs : List DisambiguatedDefPathData) :
    ∀ (acc : List String) (ibn : Option Nat), segs.filter is_impl_seg = [] →
      def_path_fold segs acc ibn = .ok (acc ++ seg_strings segs, ibn) := by
  induction segs with
  | nil =>
    intro acc ibn _
    simp [def_path_fold, seg_strings]
  | cons seg rest ih =>
    intro acc ibn h
    obtain ⟨sd, sdis⟩ := seg
    cases sd with
    | impl => simp [List.filter, is_impl_seg] at h
    | other s =>
      simp only [List.filter, is_impl_seg] at h
      simp only [def_path_fold]
      rw [ih (acc ++ [s]) ibn h]
      simp [seg_strings]

theorem def_path_fold_impl_after_impl (segs : List DisambiguatedDefPathData) :
    ∀ (acc : List String) (d : Nat), segs.filter is_impl_seg ≠ [] →
      def_path_fold segs acc (some d) =
        .error "deeply nested impl blocks currently unsupported" := by
  induction segs with
  | nil =>
    intro acc d h
    simp [List.filter] at h
  | cons seg rest ih =>
    intro acc d h
    obtain ⟨sd, sdis⟩ := seg
    cases sd with
    | impl => simp [def_path_fold]
    | other s =>
      simp only [List.filter, is_impl_seg] at h
      simp only [def_path_fold]
      exact ih (acc ++ [s]) d h

theorem def_path_fold_one_impl (segs : List DisambiguatedDefPathData) :
    ∀ (acc : List String) (s : DisambiguatedDefPathData),
      segs.filter is_impl_seg = [s] →
      def_path_fold segs acc none =
        .ok (acc ++ seg_strings segs, some s.disambiguator) := by
  induction segs with
  | nil =>
    intro acc s h
    simp [List.filter] at h
  | cons seg rest ih =>
    intro acc s h
    obtain ⟨sd, sdis⟩ := seg
    cases sd with
    | impl =>
      have hpred : is_impl_seg ⟨.impl, sdis⟩ = true := rfl
      rw [List.filter_cons_of_pos hpred] at h
      obtain ⟨h1, h2⟩ := List.cons.injEq _ _ _ _ ▸ h
      simp only [def_path_fold]
      rw [def_path_fold_no_impl rest acc (some sdis) h2]
      rw [← h1]
      simp [seg_strings]
    | other str =>
      have hpred : is_impl_seg ⟨.other str, sdis⟩ = false := rfl
      rw [List.filter_cons_of_neg (by simp [hpred])] at h
      simp only [def_path_fold]
      rw [ih (acc ++ [str]) s h]
      simp [seg_strings]

theorem def_path_fold_two_impl (segs : List DisambiguatedDefPathData) :
    ∀ (acc : List String) (s1 s2 : DisambiguatedDefPathData)
      (r : List DisambiguatedDefPathData),
      segs.filter is_impl_seg = s1 :: s2 :: r →
      def_path_fold segs acc none =
        .error "deeply nested impl blocks currently unsupported" := by
  induction segs with
  | nil =>
    intro acc s1 s2 r h
    simp [List.filter] at h
  | cons seg rest ih =>
    intro acc s1 s2 r h
    obtain ⟨sd, sdis⟩ := seg
    cases sd with
    | impl =>
      have hpred : is_impl_seg ⟨.impl, sdis⟩ = true := rfl
      rw [List.filter_cons_of_pos hpred] at h
      obtain ⟨h1, h2⟩ := List.cons.injEq _ _ _ _ ▸ h
      simp only [def_path_fold]
      apply def_path_fold_impl_after_impl rest acc sdis
      rw [h2]
      simp
    | other str =>
      have hpred : is_impl_seg ⟨.other str, sdis⟩ = false := rfl
      rw [List.filter_cons_of_neg (by simp [hpred])] at h
      simp only [def_path_fold]
      exact ih (acc ++ [str]) s1 s2 r h

/-- C4: converting a declaration path to a `Location` records at most one
impl-block disambiguator.  No impl segment: `impl_block_number` is `none` and
the path is the non-impl segment strings in order.  Exactly one impl segment:
`impl_block_number` is `some` of that segment's disambiguator.  Two or more
impl segments: the conversion aborts with the fatal "deeply nested impl
blocks" error instead of producing a `Location`. -/
theorem c4_impl_block_disambiguator :
    (∀ dp : DefPath, dp.data.filter is_impl_seg = [] →
      def_path_to_rtk_location dp = .ok ⟨dp.krate, seg_strings dp.data, none⟩) ∧
    (∀ (dp : DefPath) (s : DisambiguatedDefPathData),
      dp.data.filter is_impl_seg = [s] →
      def_path_to_rtk_location dp =
        .ok ⟨dp.krate, seg_strings dp.data, some s.disambiguator⟩) ∧
    (∀ (dp : DefPath) (s1 s2 : DisambiguatedDefPathData)
      (r : List DisambiguatedDefPathData),
      dp.data.filter is_impl_seg = s1 :: s2 :: r →
      def_path_to_rtk_location dp =
        .error "deeply nested impl blocks currently unsupported") := by
  refine ⟨?_, ?_, ?_⟩
  · intro dp h
    simp only [def_path_to_rtk_location]
    rw [def_path_fold_no_impl dp.data [] none h]
    rfl
  · intro dp s h
    simp only [def_path_to_rtk_location]
    rw [def_path_fold_one_impl dp.data [] s h]
    rfl
  · intro dp s1 s2 r h
    simp only [def_path_to_rtk_location]
    rw [def_path_fold_two_impl dp.data [] s1 s2 r h]

theorem c4_witness :
    def_path_to_rtk_location ⟨"k", [⟨.other "m", 0⟩, ⟨.other "f", 0⟩]⟩ =
      .ok ⟨"k", ["m", "f"], none⟩ ∧
    def_path_to_rtk_location ⟨"k", [⟨.other "m", 0⟩, ⟨.impl, 3⟩, ⟨.other "f", 0⟩]⟩ =
      .ok ⟨"k", ["m", "f"], some 3⟩ ∧
    def_path_to_rtk_location ⟨"k", [⟨.impl, 1⟩, ⟨.impl, 2⟩]⟩ =
      .error "deeply nested impl blocks currently unsupported" :=
  ⟨c4_impl_block_disambiguator.1 ⟨"k", [⟨.other "m", 0⟩, ⟨.other "f", 0⟩]⟩ (by decide),
   c4_impl_block_disambiguator.2.1 ⟨"k", [⟨.other "m", 0⟩, ⟨.impl, 3⟩, ⟨.other "f", 0⟩]⟩
     ⟨.impl, 3⟩ (by decide),
   c4_impl_block_disambiguator.2.2 ⟨"k", [⟨.impl, 1⟩, ⟨.impl, 2⟩]⟩
     ⟨.impl, 1⟩ ⟨.impl, 2⟩ [] (by decide)⟩

theorem known_option_eval (env : Env) (t : RustTy) (rest : RustTyList) (vis : Visited)
    (v : TypeValue) (δ : Visited) (d : List Diag)
    (ht : type_as_rtk_lua_type_value env t vis = (some v, δ, d)) :
    known_option_as_rtk_lua env (.cons t rest) vis = (some (.Option v), δ, d) := by
  simp only [known_option_as_rtk_lua, ht]
  rfl

theorem maybe_resolve_option_eval (env : Env) (t : RustTy) (rest : RustTyList)
    (vis : Visited) (v : TypeValue) (δ : Visited) (d : List Diag)
    (ht : type_as_rtk_lua_type_value env t vis = (some v, δ, d)) :
    maybe_resolve_known_def_path env "core::option::Option" (.cons t rest) vis =
      (some (.Option v), δ, d) := by
  rw [maybe_resolve_known_def_path]
  rw [if_neg (by decide), if_pos rfl]
  exact known_option_eval env t rest vis v δ d ht

theorem adt_option_eval (env : Env) (optDid : DefId) (t : RustTy) (rest : RustTyList)
    (vis : Visited) (v : TypeValue) (δ : Visited) (d : List Diag)
    (hfmt : fmt_rtk_location (env.loc optDid) = "core::option::Option")
    (ht : type_as_rtk_lua_type_value env t vis = (some v, δ, d)) :
    adt_type_as_rtk_lua_type_value env optDid (.cons t rest) vis =
      (some (.Option v), δ, d) := by
  simp only [adt_type_as_rtk_lua_type_value, hfmt]
  rw [maybe_resolve_option_eval env t rest vis v δ d ht]

/-- C8: known-type folding composes without collapsing nesting levels: for
every type whose elevation succeeds with value `v`, elevating
`Option<Option<that type>>` yields `Option(Option(v))` — one `Option` layer
per source-level `Option` — with the same visited-set and diagnostic
effects. -/
theorem c8_option_option_folding_composes
    (env : Env) (optDid : DefId) (t : RustTy) (vis : Visited)
    (v : TypeValue) (δ : Visited) (d : List Diag)
    (hfmt : fmt_rtk_location (env.loc optDid) = "core::option::Option")
    (ht : type_as_rtk_lua_type_value env t vis = (some v, δ, d)) :
    type_as_rtk_lua_type_value env
      (.adt optDid (.cons (.adt optDid (.cons t .nil)) .nil)) vis =
      (some (.Option (.Option v)), δ, d) := by
  rw [type_as_adt]
  apply adt_option_eval env optDid _ _ vis (.Option v) δ d hfmt
  rw [type_as_adt]
  exact adt_option_eval env optDid t .nil vis v δ d hfmt ht

/-- Snapshot for the C8 witness: every `DefId` resolves to
`core::option::Option`. -/
def env_c8 : Env :=
  { adts := [],
    loc := fun _ => ⟨"core", ["option", "Option"], none⟩,
    attrs := fun _ => [],
    doc := fun _ => none,
    dbgTy := fun _ => "" }

theorem c8_witness :
    type_as_rtk_lua_type_value env_c8
      (.adt ⟨1, 1⟩ (.cons (.adt ⟨1, 1⟩ (.cons .bool .nil)) .nil)) [] =
      (some (.Option (.Option .Bool)), [], []) :=
  c8_option_option_folding_composes env_c8 ⟨1, 1⟩ .bool [] .Bool [] []
    (by decide) (by simp [type_as_rtk_lua_type_value])

/-- C9: the version-string grammar: `"1.2.3"` parses to the crates-io version
with major 1, minor 2, patch 3; `"latest"` parses to the latest marker;
`"local:/x/y"` parses to a local version with path `/x/y`; `"1.2"` is
rejected with the format error naming the input, and `"x.y.z"` is rejected
with the error naming the failing (major) segment. -/
theorem c9_version_grammar :
    RtkRustcDriverVersion.from_lua "1.2.3" = .ok (.CratesIo 1 2 3) ∧
    RtkRustcDriverVersion.from_lua "latest" = .ok .CratesIoLatest ∧
    RtkRustcDriverVersion.from_lua "local:/x/y" = .ok (.Local "/x/y") ∧
    RtkRustcDriverVersion.from_lua "1.2" =
      .error "Invalid version format: 1.2. Expected format: major.minor.patch" ∧
    RtkRustcDriverVersion.from_lua "x.y.z" = .error "Invalid major version: x" :=
  ⟨rfl, rfl, rfl, rfl, rfl⟩

/-- C5: `Location` equality is exact structural equality, so two `Location`s
differing only in `impl_block_number` are never equal; and a method-call query
whose `Location` agrees with the call's resolved `Location` in crate and path
but differs in disambiguator contributes no result (`none`) while still
emitting the "did you mean" warning naming the resolved `Location` — the
warning does not change the no-match outcome. -/
theorem c5_location_equality_exact_and_did_you_mean :
    (∀ (c : String) (p : List String) (n : Nat),
      (⟨c, p, none⟩ : Location) ≠ ⟨c, p, some n⟩) ∧
    (∀ (env : Env) (info : ExprInfo) (receiver : HExpr) (args : List HExpr)
      (dp : DefPath) (c : String) (p : List String) (ibn1 : Option Nat) (n2 : Nat),
      info.resolved = some dp →
      def_path_to_rtk_location dp = .ok ⟨c, p, some n2⟩ →
      ibn1 ≠ some n2 →
      method_call_from_expr env (.mk none ⟨c, p, ibn1⟩) (.methodCall info receiver args) =
        .ok (none, [.warn ("query for `" ++ fmt_rtk_location ⟨c, p, ibn1⟩ ++
          "` likely intended to match against `" ++ fmt_rtk_location ⟨c, p, some n2⟩ ++
          "`, consider changing the impl block number")])) := by
  constructor
  · intro c p n h
    exact Option.noConfusion (congrArg Location.impl_block_number h)
  · intro env info receiver args dp c p ibn1 n2 hres hconv hne
    rw [method_call_from_expr]
    simp only [MethodCallQuery.parent]
    rw [method_call_resolved]
    rw [hres]
    simp only [hconv, MethodCallQuery.location]
    rw [if_pos (by
      intro h
      exact hne (congrArg Location.impl_block_number h).symm)]
    simp

/-- Oracle data for the C5 witness. -/
def env_c5 : Env :=
  { adts := [],
    loc := fun _ => ⟨"?", [], none⟩,
    attrs := fun _ => [],
    doc := fun _ => none,
    dbgTy := fun _ => "" }

theorem c5_witness :
    (⟨"k", ["m"], none⟩ : Location) ≠ ⟨"k", ["m"], some 0⟩ ∧
    method_call_from_expr env_c5 (.mk none ⟨"k", ["m", "foo"], none⟩)
      (.methodCall ⟨⟨0, 0⟩, some ⟨"k", [⟨.other "m", 0⟩, ⟨.impl, 1⟩, ⟨.other "foo", 0⟩]⟩,
        .unsupported⟩ (.otherExpr ⟨⟨0, 0⟩, none, .unsupported⟩) []) =
      .ok (none, [.warn ("query for `" ++ fmt_rtk_location ⟨"k", ["m", "foo"], none⟩ ++
        "` likely intended to match against `" ++
        fmt_rtk_location ⟨"k", ["m", "foo"], some 1⟩ ++
        "`, consider changing the impl block number")]) :=
  ⟨c5_location_equality_exact_and_did_you_mean.1 "k" ["m"] 0,
   c5_location_equality_exact_and_did_you_mean.2 env_c5
     ⟨⟨0, 0⟩, some ⟨"k", [⟨.other "m", 0⟩, ⟨.impl, 1⟩, ⟨.other "foo", 0⟩]⟩, .unsupported⟩
     (.otherExpr ⟨⟨0, 0⟩, none, .unsupported⟩) []
     ⟨"k", [⟨.other "m", 0⟩, ⟨.impl, 1⟩, ⟨.other "foo", 0⟩]⟩ "k" ["m", "foo"] none 1
     rfl rfl (by decide)⟩

/-- C6: parent-chain enforcement is direct-parent-only, checked against the
receiver expression itself.  For `a.foo().bar()`, a query for `bar` whose
`parent` is a query for `foo` matches (and builds the `MethodCall` with the
query as its origin); the same query against a `bar` call whose receiver is
not a method call (so contains no matching `foo` call) yields no match. -/
theorem c6_parent_chain_direct_only :
    (∀ (env : Env) (infoFoo infoBar : ExprInfo) (rx : HExpr)
      (dpFoo dpBar : DefPath) (fooLoc barLoc : Location),
      infoFoo.resolved = some dpFoo →
      def_path_to_rtk_location dpFoo = .ok fooLoc →
      infoBar.resolved = some dpBar →
      def_path_to_rtk_location dpBar = .ok barLoc →
      method_call_from_expr env (.mk (some (.mk none fooLoc)) barLoc)
        (.methodCall infoBar (.methodCall infoFoo rx []) []) =
        .ok (some (.mk (.mk (some (.mk none fooLoc)) barLoc) []
          (rtk_item_id infoBar.owner)), [])) ∧
    (∀ (env : Env) (infoOther infoBar : ExprInfo) (dpBar : DefPath)
      (fooLoc barLoc : Location),
      infoBar.resolved = some dpBar →
      def_path_to_rtk_location dpBar = .ok barLoc →
      method_call_from_expr env (.mk (some (.mk none fooLoc)) barLoc)
        (.methodCall infoBar (.otherExpr infoOther) []) = .ok (none, [])) := by
  constructor
  · intro env infoFoo infoBar rx dpFoo dpBar fooLoc barLoc hrf hcf hrb hcb
    have hfoo : method_call_from_expr env (.mk none fooLoc) (.methodCall infoFoo rx []) =
        .ok (some (.mk (.mk none fooLoc) [] (rtk_item_id infoFoo.owner)), []) := by
      rw [method_call_from_expr]
      simp only [MethodCallQuery.parent]
      rw [method_call_resolved]
      rw [hrf]
      simp only [hcf, MethodCallQuery.location]
      rw [if_neg (by simp)]
      rw [show args_as_rtk_lua_values env [] = .ok ([], []) from by
        rw [args_as_rtk_lua_values]]
      rfl
    rw [method_call_from_expr]
    simp only [MethodCallQuery.parent]
    rw [hfoo]
    show method_call_resolved env (.mk (some (.mk none fooLoc)) barLoc) infoBar [] [] =
      .ok (some (.mk (.mk (some (.mk none fooLoc)) barLoc) []
        (rtk_item_id infoBar.owner)), [])
    rw [method_call_resolved]
    rw [hrb]
    simp only [hcb, MethodCallQuery.location]
    rw [if_neg (by simp)]
    rw [show args_as_rtk_lua_values env [] = .ok ([], []) from by
      rw [args_as_rtk_lua_values]]
    rfl
  · intro env infoOther infoBar dpBar fooLoc barLoc hrb hcb
    have h0 : method_call_from_expr env (.mk none fooLoc) (.otherExpr infoOther) =
        .ok (none, []) := by
      rw [method_call_from_expr]
      intro info receiver args h
      exact HExpr.noConfusion h
    rw [method_call_from_expr]
    simp only [MethodCallQuery.parent]
    rw [h0]

/-- Oracle data for the C6 witness. -/
def env_c6 : Env :=
  { adts := [],
    loc := fun _ => ⟨"?", [], none⟩,
    attrs := fun _ => [],
    doc := fun _ => none,
    dbgTy := fun _ => "" }

theorem c6_witness :
    method_call_from_expr env_c6
      (.mk (some (.mk none ⟨"k", ["foo"], none⟩)) ⟨"k", ["bar"], none⟩)
      (.methodCall ⟨⟨2, 2⟩, some ⟨"k", [⟨.other "bar", 0⟩]⟩, .unsupported⟩
        (.methodCall ⟨⟨2, 1⟩, some ⟨"k", [⟨.other "foo", 0⟩]⟩, .unsupported⟩
          (.otherExpr ⟨⟨2, 0⟩, none, .unsupported⟩) []) []) =
      .ok (some (.mk (.mk (some (.mk none ⟨"k", ["foo"], none⟩)) ⟨"k", ["bar"], none⟩)
        [] (rtk_item_id ⟨2, 2⟩)), []) ∧
    method_call_from_expr env_c6
      (.mk (some (.mk none ⟨"k", ["foo"], none⟩)) ⟨"k", ["bar"], none⟩)
      (.methodCall ⟨⟨2, 2⟩, some ⟨"k", [⟨.other "bar", 0⟩]⟩, .unsupported⟩
        (.otherExpr ⟨⟨2, 0⟩, none, .unsupported⟩) []) = .ok (none, []) :=
  ⟨c6_parent_chain_direct_only.1 env_c6
     ⟨⟨2, 1⟩, some ⟨"k", [⟨.other "foo", 0⟩]⟩, .unsupported⟩
     ⟨⟨2, 2⟩, some ⟨"k", [⟨.other "bar", 0⟩]⟩, .unsupported⟩
     (.otherExpr ⟨⟨2, 0⟩, none, .unsupported⟩)
     ⟨"k", [⟨.other "foo", 0⟩]⟩ ⟨"k", [⟨.other "bar", 0⟩]⟩
     ⟨"k", ["foo"], none⟩ ⟨"k", ["bar"], none⟩ rfl rfl rfl rfl,
   c6_parent_chain_direct_only.2 env_c6
     ⟨⟨2, 0⟩, none, .unsupported⟩
     ⟨⟨2, 2⟩, some ⟨"k", [⟨.other "bar", 0⟩]⟩, .unsupported⟩
     ⟨"k", [⟨.other "bar", 0⟩]⟩ ⟨"k", ["foo"], none⟩ ⟨"k", ["bar"], none⟩
     rfl rfl⟩

theorem tget_tagged_pair_data (n : String) (d : LuaValue) :
    tget (tagged_pair n d) (.str "variant_data") = d := by
  cases d <;> simp [tagged_pair, tset, tget, lookup_entries]

theorem tget_tagged_pair_name (n : String) (d : LuaValue) :
    tget (tagged_pair n d) (.str "variant_name") = .str n := by
  cases d <;> simp [tagged_pair, tset, tget, lookup_entries]

theorem type_value_into_lua_ne_nil (t : TypeValue) : t.into_lua ≠ .nil := by
  cases t <;> simp [TypeValue.into_lua, tagged_pair, tset]

theorem struct_type_value_into_lua_ne_nil (s : StructTypeValue) :
    s.into_lua ≠ .nil := by
  cases s
  simp [StructTypeValue.into_lua]

theorem enum_type_value_into_lua_ne_nil (e : EnumTypeValue) :
    e.into_lua ≠ .nil := by
  cases e
  simp [EnumTypeValue.into_lua]

theorem closure_type_value_into_lua_table (c : ClosureTypeValue) :
    ∃ es, c.into_lua = .table es := by
  obtain ⟨args, rt⟩ := c
  exact ⟨_, by rw [ClosureTypeValue.into_lua.eq_def]⟩

theorem closure_type_value_into_lua_ne_nil (c : ClosureTypeValue) :
    c.into_lua ≠ .nil := by
  obtain ⟨es, he⟩ := closure_type_value_into_lua_table c
  rw [he]
  simp

theorem function_type_value_into_lua_table (f : FunctionTypeValue) :
    ∃ es, f.into_lua = .table es := by
  obtain ⟨l, a, r, i, at2, dc, ia⟩ := f
  exact ⟨_, by rw [FunctionTypeValue.into_lua.eq_def]⟩

theorem function_type_value_into_lua_ne_nil (f : FunctionTypeValue) :
    f.into_lua ≠ .nil := by
  obtain ⟨es, he⟩ := function_type_value_into_lua_table f
  rw [he]
  simp

theorem location_into_lua_ne_nil (l : Location) : l.into_lua ≠ .nil := by
  simp [Location.into_lua]

theorem lua_seq_ne_nil (vs : List LuaValue) : lua_seq vs ≠ .nil := by
  simp [lua_seq]

/-- C10: marshalling `TypeValue::HashMap(k, v)` or `TypeValue::Result(ok, err)`
to the scripting host produces a tagged pair whose `variant_data` is nil — the
payload types are not transmitted — unlike every other payload-carrying
variant (`Vec`, `Option`, `Struct`, `Enum`, `Closure`, `Function`, `Tuple`,
`RecursiveRef`), whose payload is marshalled as the (non-nil)
`variant_data`. -/
theorem c10_hashmap_result_variant_data_nil :
    (∀ k v : TypeValue,
      tget ((TypeValue.HashMap k v).into_lua) (.str "variant_data") = .nil ∧
      tget ((TypeValue.HashMap k v).into_lua) (.str "variant_name") = .str "HashMap") ∧
    (∀ ok err : TypeValue,
      tget ((TypeValue.Result ok err).into_lua) (.str "variant_data") = .nil ∧
      tget ((TypeValue.Result ok err).into_lua) (.str "variant_name") = .str "Result") ∧
    (∀ t : TypeValue,
      tget ((TypeValue.Vec t).into_lua) (.str "variant_data") = t.into_lua ∧
      t.into_lua ≠ .nil) ∧
    (∀ t : TypeValue,
      tget ((TypeValue.Option t).into_lua) (.str "variant_data") = t.into_lua ∧
      t.into_lua ≠ .nil) ∧
    (∀ s : StructTypeValue,
      tget ((TypeValue.Struct s).into_lua) (.str "variant_data") = s.into_lua ∧
      s.into_lua ≠ .nil) ∧
    (∀ e : EnumTypeValue,
      tget ((TypeValue.Enum e).into_lua) (.str "variant_data") = e.into_lua ∧
      e.into_lua ≠ .nil) ∧
    (∀ c : ClosureTypeValue,
      tget ((TypeValue.Closure c).into_lua) (.str "variant_data") = c.into_lua ∧
      c.into_lua ≠ .nil) ∧
    (∀ f : FunctionTypeValue,
      tget ((TypeValue.Function f).into_lua) (.str "variant_data") = f.into_lua ∧
      f.into_lua ≠ .nil) ∧
    (∀ ts : List TypeValue,
      tget ((TypeValue.Tuple ts).into_lua) (.str "variant_data") =
        lua_seq (type_values_into_lua ts) ∧
      lua_seq (type_values_into_lua ts) ≠ .nil) ∧
    (∀ loc : Location,
      tget ((TypeValue.RecursiveRef loc).into_lua) (.str "variant_data") =
        loc.into_lua ∧
      loc.into_lua ≠ .nil) := by
  refine ⟨?_, ?_, ?_, ?_, ?_, ?_, ?_, ?_, ?_, ?_⟩
  · intro k v
    exact ⟨tget_tagged_pair_data _ _, tget_tagged_pair_name _ _⟩
  · intro ok err
    exact ⟨tget_tagged_pair_data _ _, tget_tagged_pair_name _ _⟩
  · intro t
    exact ⟨tget_tagged_pair_data _ _, type_value_into_lua_ne_nil t⟩
  · intro t
    exact ⟨tget_tagged_pair_data _ _, type_value_into_lua_ne_nil t⟩
  · intro s
    exact ⟨tget_tagged_pair_data _ _, struct_type_value_into_lua_ne_nil s⟩
  · intro e
    exact ⟨tget_tagged_pair_data _ _, enum_type_value_into_lua_ne_nil e⟩
  · intro c
    exact ⟨tget_tagged_pair_data _ _, closure_type_value_into_lua_ne_nil c⟩
  · intro f
    exact ⟨tget_tagged_pair_data _ _, function_type_value_into_lua_ne_nil f⟩
  · intro ts
    exact ⟨tget_tagged_pair_data _ _, lua_seq_ne_nil _⟩
  · intro loc
    exact ⟨tget_tagged_pair_data _ _, location_into_lua_ne_nil loc⟩
